import Mathlib

/-!
Shallow embedding of the KickCAT EtherCAT master core (src/src/Bus.cc and the
mailbox header src/unnamed/part_000), together with theorems settling the
frozen claims about it. Machine integers are modelled as `Nat` with explicit
`% 2^w` where wrap-around matters; fallible paths return `Except`.
-/

namespace KickCat

/-- EtherCAT command codes used by the Bus controller (Bus.cc call sites). -/
inductive Command
  | BRD
  | BWR
  | APRW
  | FPRD
  | FPRW
deriving DecidableEq, Repr

/-- One issued datagram as the Bus controller builds it: command, packed
32-bit address, payload size in bytes and (for writes) the written value.
Reads pass nullptr, modelled as value 0. -/
structure Dgm where
  command : Command
  address : Nat
  size : Nat
  value : Nat
deriving DecidableEq, Repr

/-- Modelled from the spec: `createAddress` lives in protocol.h, which is not
under src/. Spec 4.1: the 32-bit address field packs the 16-bit position or
station address into the high half and the register offset into the low half;
auto-increment callers pass a negative position, encoded two's-complement
(Bus.cc line 126 passes `0 - i`). -/
def createAddress (position : Int) (ado : Nat) : Nat :=
  ((position % 65536).toNat) * 65536 + ado % 65536

namespace reg

/-- Modelled from the spec: register offsets live in protocol.h, not under
src/; values from spec 6 "Protocol constants". -/
def TYPE : Nat := 0x0000

def STATION_ADDR : Nat := 0x0010

def AL_CONTROL : Nat := 0x0120

def AL_STATUS : Nat := 0x0130

def EEPROM_CONTROL : Nat := 0x0502

def EEPROM_DATA : Nat := 0x0508

def SYNC_MANAGER : Nat := 0x0800

/-- Modelled from the spec: sync-manager slots are 8 bytes each starting at
0x0800, with the status byte at offset SM_STATS = 0x05 inside a slot. -/
def SYNC_MANAGER_0 : Nat := 0x0800

def SYNC_MANAGER_1 : Nat := 0x0808

def SM_STATS : Nat := 0x05

end reg

/-- Frame capacity bound (Frame.h constant, value given by spec 3: 15). -/
def MAX_ETHERCAT_DATAGRAMS : Nat := 15

namespace MessageStatus

/-- Mailbox message statuses, transcribed from src/unnamed/part_000
lines 20-29 (namespace MessageStatus). -/
def SUCCESS : Nat := 0x000

def RUNNING : Nat := 0x001

def COE_WRONG_SERVICE : Nat := 0x101

def COE_UNKNOWN_SERVICE : Nat := 0x102

def COE_CLIENT_BUFFER_TOO_SMALL : Nat := 0x103

/-- part_000 line 28: the constant is 0x103, the same value as
COE_CLIENT_BUFFER_TOO_SMALL on line 27. -/
def COE_SEGMENT_BAD_TOGGLE_BIT : Nat := 0x103

end MessageStatus

/-- Per-slave EEPROM identity fields filled by Bus::fetchEeprom. -/
structure EepromInfo where
  eeprom_size : Nat
  eeprom_version : Nat
deriving DecidableEq, Repr

/-- The EEPROM_SIZE apply closure of Bus::fetchEeprom (Bus.cc 377-383):
`eeprom_size = (word & 0xFF) + 1` then `*= 128`; `eeprom_version = word >> 16`.
`word` is a uint32_t so no truncation occurs on either field. -/
def applyEepromSize (word : Nat) : EepromInfo :=
  { eeprom_size := ((word &&& 0xFF) + 1) * 128
    eeprom_version := word >>> 16 }

/-- Bus::readEeprom applies the closure to the EEPROM_DATA word of every slave
in slave order (Bus.cc 347-356); for the EEPROM_SIZE pass this yields one
EepromInfo per slave. -/
def fetchEepromSizes (words : List Nat) : List EepromInfo :=
  words.map applyEepromSize

/-- Modelled from the spec: the body of Mailbox::nextCounter is not under src/
(src/unnamed/part_000 line 81 only declares it). Spec 4.5: `next_counter()`
returns `((counter % 7) + 1)`; the returned value becomes the stored session
counter stamped on the outgoing message. -/
def nextCounter (counter : Nat) : Nat :=
  counter % 7 + 1

/-- The mailbox counter after k nextCounter calls, from the initial value 0
(part_000 line 68: `uint8_t counter{0}`); for k ≥ 1 this is the k-th value
returned to a caller. -/
def counterAfter : Nat → Nat
  | 0 => 0
  | k + 1 => nextCounter (counterAfter k)

/-- Outcome of one socket write-then-read round trip as seen by the broadcast
helpers: either the reply's working counter, or an I/O failure. -/
inductive LinkIo
  | ok (wkc : Nat)
  | ioError
deriving DecidableEq, Repr

/-- Bus::broadcastRead (Bus.cc 25-38): on a socket write/read failure the
error is only printed and the function returns 0; otherwise it returns the
reply datagram's working counter. -/
def broadcastReadWkc : LinkIo → Nat
  | .ioError => 0
  | .ok wkc => wkc

/-- Bus::broadcastWrite (Bus.cc 41-54): identical error convention. -/
def broadcastWriteWkc : LinkIo → Nat
  | .ioError => 0
  | .ok wkc => wkc

/-- Bus::detectSlaves discovery step (Bus.cc 90-98): wkc from a broadcast read
of reg::TYPE; a working counter of 0 yields the "No slaves on the bus" error,
otherwise the slave count. -/
def detectSlavesOutcome (link : LinkIo) : Except String Nat :=
  let wkc := broadcastReadWkc link
  if wkc = 0 then Except.error "No slaves on the bus" else Except.ok wkc

/-- The isFull lambda of Bus::checkMailboxes (Bus.cc 426-435): consumes the
next reply datagram; on a working counter other than 1 it reports the error
and returns the caller-supplied stable value, otherwise it tests bit 0x08 of
the status byte. -/
def isFull (wkc : Nat) (state : Nat) (stable_value : Bool) : Bool :=
  if wkc ≠ 1 then stable_value else (state &&& 0x08) == 0x08

/-- The two mailbox availability flags of a slave's mailbox as Bus.cc names
them (read_available / write_available; spec data model: can_read /
can_write). -/
structure MboxFlags where
  read_available : Bool
  write_available : Bool
deriving DecidableEq, Repr

/-- Bus::checkMailboxes reply decoding for one slave (Bus.cc 424-438): the
replies are consumed in issue order, so `sm0` is the (wkc, status byte) reply
of the SM0 status read and `sm1` that of the SM1 status read. The code sets
`read_available := isFull(false)` on the first reply and
`write_available := isFull(true)` on the second. -/
def checkMailboxesDecode (sm0 sm1 : Nat × Nat) : MboxFlags :=
  { read_available := isFull sm0.1 sm0.2 false
    write_available := isFull sm1.1 sm1.2 true }

/-- Bus::checkMailboxes issue phase (Bus.cc 411-415): per slave, one 1-byte
FPRD of SM0's status byte then one of SM1's status byte. -/
def checkMailboxesIssue (slaves : List Nat) : List Dgm :=
  (slaves.map (fun (a : Nat) =>
    [Dgm.mk Command.FPRD (createAddress (a : Int) (reg.SYNC_MANAGER_0 + reg.SM_STATS)) 1 0,
     Dgm.mk Command.FPRD (createAddress (a : Int) (reg.SYNC_MANAGER_1 + reg.SM_STATS)) 1 0])).flatten

/-- Steps Bus::init performs after configureMailboxes (Bus.cc 146-155). -/
inductive InitStep
  | requestState (s : Nat)
  | sleepMicros (us : Nat)
  | checkMailboxes
  | readAlStatus (address : Nat)
deriving DecidableEq, Repr

/-- The tail of Bus::init after configureMailboxes (Bus.cc 146-155):
broadcast PRE_OP request (State::PRE_OP = 2), a fixed `usleep(10000)` —
10000 µs, with the comment "TODO: wait for state" — then checkMailboxes and
one AL_STATUS read per slave (getCurrentState) for printing. The step list
depends only on the slave addresses, not on any AL status value: the code
contains no polling loop. -/
def initPreOpTail (addresses : List Nat) : List InitStep :=
  [InitStep.requestState 2, InitStep.sleepMicros 10000, InitStep.checkMailboxes]
    ++ addresses.map InitStep.readAlStatus

/-- Bus::detectSlaves frame allocation count (Bus.cc 102):
`(wkc * 2 / MAX_ETHERCAT_DATAGRAMS + 1) * 2` with C++ integer (floor)
division. -/
def neededFrames (wkc : Nat) : Nat :=
  (wkc * 2 / MAX_ETHERCAT_DATAGRAMS + 1) * 2

/-- Total frames held after detectSlaves (Bus.cc 14-15 and 102-107): one frame
from the constructor plus the `needed_frames - 1` frames emplaced by the loop
`for (i = 1; i < needed_frames; ++i)`. -/
def framesAfterDetect (wkc : Nat) : Nat :=
  1 + (neededFrames wkc - 1)

/-- Ceiling division, used to state the spec's capacity formula. -/
def ceilDiv (a b : Nat) : Nat :=
  (a + b - 1) / b

/-- The claimed frame count, following the spec's words: reserve
`ceil(expected_datagrams / MAX_ETHERCAT_DATAGRAMS) * 2` frames with
`expected_datagrams = 2 * N`. -/
def specCeilFrames (n : Nat) : Nat :=
  ceilDiv (2 * n) MAX_ETHERCAT_DATAGRAMS * 2

/-- The index-relevant operations the Bus controller performs. The broadcast
helpers and getCurrentState carry the socket round-trip outcome (true =
success) because the counter increment sits after the early error return. -/
inductive BusOp
  | broadcastRead (ado size : Nat) (link : Bool)
  | broadcastWrite (ado size : Nat) (link : Bool)
  | addDatagram (cmd : Command) (address size : Nat)
  | getCurrentState (address : Nat) (link : Bool)
deriving DecidableEq, Repr

/-- Index bytes stamped into the issued datagrams by a sequence of Bus
operations, starting from counter value `idx`, together with the final
counter. Transcribed from Bus.cc: broadcastRead/broadcastWrite stamp `idx_`
and run `++idx_` only after a successful round trip (lines 27-36, 43-52);
Bus::addDatagram stamps `idx_` and never increments it (line 65);
getCurrentState stamps the literal 0x55 (line 179). `idx_` is a uint8_t, so
stamps and increments are taken modulo 256. -/
def stampIndices (idx : Nat) : List BusOp → List Nat × Nat
  | [] => ([], idx)
  | BusOp.broadcastRead _ _ true :: rest =>
    let r := stampIndices ((idx + 1) % 256) rest
    (idx % 256 :: r.1, r.2)
  | BusOp.broadcastRead _ _ false :: rest =>
    let r := stampIndices idx rest
    (idx % 256 :: r.1, r.2)
  | BusOp.broadcastWrite _ _ true :: rest =>
    let r := stampIndices ((idx + 1) % 256) rest
    (idx % 256 :: r.1, r.2)
  | BusOp.broadcastWrite _ _ false :: rest =>
    let r := stampIndices idx rest
    (idx % 256 :: r.1, r.2)
  | BusOp.addDatagram _ _ _ :: rest =>
    let r := stampIndices idx rest
    (idx % 256 :: r.1, r.2)
  | BusOp.getCurrentState _ _ :: rest =>
    let r := stampIndices idx rest
    (0x55 :: r.1, r.2)

/-- One iteration of the EEPROM readiness check succeeds when every slave's
EEPROM_CONTROL status word has the busy bit 0x8000 clear (Bus.cc 288). -/
def allClearIter (words : List Nat) : Bool :=
  words.all (fun w => (w &&& 0x8000) == 0)

/-- Observable outcome of the Bus::areEepromReady polling loop: final result,
number of executed iterations, the microsecond pauses taken (one before each
executed iteration) and the number of times all frames were cleared. -/
structure PollOut where
  result : Bool
  iters : Nat
  sleeps : List Nat
  clears : Nat
deriving DecidableEq, Repr

/-- Bus::areEepromReady loop (Bus.cc 260-306), recursing on the remaining
iteration budget with `i` the current iteration number: each executed
iteration starts with `usleep(200)`, batches one 2-byte FPRD of
EEPROM_CONTROL per slave, and succeeds (returning true at once) when every
answered status word has bit 0x8000 clear; otherwise it clears all frames and
retries. `statuses i` is the list of status words the iteration-i batch would
read, one per slave in slave order. The inner declaration `bool ready = true`
shadows the outer `ready`, which therefore stays false; the loop guard
`(i < 10) and not ready` consequently degenerates to `i < 10`, which this
recursion mirrors. Link errors inside the loop are not modelled: `statuses`
presumes answered round trips. -/
def pollFrom (statuses : Nat → List Nat) : Nat → Nat → PollOut
  | _, 0 => PollOut.mk false 0 [] 0
  | i, fuel + 1 =>
    if allClearIter (statuses i) then PollOut.mk true 1 [200] 0
    else
      let r := pollFrom statuses (i + 1) fuel
      PollOut.mk r.result (r.iters + 1) (200 :: r.sleeps) (r.clears + 1)

/-- Bus::areEepromReady runs at most 10 iterations starting at i = 0
(Bus.cc 263). -/
def eepromPoll (statuses : Nat → List Nat) : PollOut :=
  pollFrom statuses 0 10

/-- Boolean result of Bus::areEepromReady. -/
def areEepromReady (statuses : Nat → List Nat) : Bool :=
  (eepromPoll statuses).result

/-- The datagram batch of one readiness iteration (Bus.cc 266-269): a 2-byte
FPRD of EEPROM_CONTROL for every slave. -/
def eepromControlBatch (slaves : List Nat) : List Dgm :=
  slaves.map (fun (a : Nat) => Dgm.mk Command.FPRD (createAddress (a : Int) reg.EEPROM_CONTROL) 2 0)

/-- Bus::readEeprom control flow (Bus.cc 309-358): the broadcast write of the
read request must answer with wkc equal to the slave count, then the
readiness poll must succeed, and only then are the EEPROM_DATA words read and
returned. -/
def readEeprom (slaveCount wkcWrite : Nat) (statuses : Nat → List Nat)
    (words : List Nat) : Except String (List Nat) :=
  if wkcWrite ≠ slaveCount then Except.error "wrong slave number"
  else if areEepromReady statuses then Except.ok words
  else Except.error "eeprom not ready - timeout"

/-- Station addresses assigned by the init addressing loop (Bus.cc 123-127):
`slaves_[i].address = 0x1000 + i` for i in bus order; the address field is a
16-bit station address (spec data model), so the stored value wraps mod
65536. -/
def assignedAddresses (n : Nat) : List Nat :=
  (List.range n).map (fun i => (0x1000 + i) % 65536)

/-- Datagrams issued by the init addressing loop (Bus.cc 123-127): for each
slave i, an APRW of STATION_ADDR at auto-increment position `0 - i` writing
the 2-byte assigned address. -/
def addressingDatagrams (n : Nat) : List Dgm :=
  (List.range n).map (fun (i : Nat) =>
    { command := Command.APRW
      address := createAddress (0 - (i : Int)) reg.STATION_ADDR
      size := 2
      value := (0x1000 + i) % 65536 })

/-- The whole addressing phase: the batched datagrams together with the
number of processFrames commits (a single call, Bus.cc 128). -/
def addressingPhase (n : Nat) : List Dgm × Nat :=
  (addressingDatagrams n, 1)

/-! Helper lemmas. -/

lemma counterAfter_closed (k : Nat) : counterAfter (k + 1) = k % 7 + 1 := by
  induction k with
  | zero => rfl
  | succ k ih =>
    show nextCounter (counterAfter (k + 1)) = (k + 1) % 7 + 1
    rw [ih]
    simp only [nextCounter]
    omega

lemma stampIndices_replicate_brd (c n a s : Nat) :
    (stampIndices c (List.replicate n (BusOp.broadcastRead a s true))).1
      = (List.range n).map (fun i => (c + i) % 256) := by
  induction n generalizing c with
  | zero => rfl
  | succ n ih =>
    rw [List.replicate_succ, List.range_succ_eq_map]
    simp only [stampIndices, ih ((c + 1) % 256), List.map_cons, List.map_map]
    refine congrArg₂ _ (by omega) ?_
    refine List.map_congr_left ?_
    intro i _
    simp only [Function.comp]
    omega

lemma stampIndices_replicate_add (c m addr sz : Nat) (cmd : Command) :
    (stampIndices c (List.replicate m (BusOp.addDatagram cmd addr sz))).1
      = List.replicate m (c % 256) := by
  induction m with
  | zero => rfl
  | succ m ih =>
    rw [List.replicate_succ, List.replicate_succ]
    simp only [stampIndices, ih]

lemma pollFrom_iters_le (st : Nat → List Nat) (fuel i : Nat) :
    (pollFrom st i fuel).iters ≤ fuel := by
  induction fuel generalizing i with
  | zero => simp [pollFrom]
  | succ fuel ih =>
    simp only [pollFrom]
    split
    · simp
    · simpa using ih (i + 1)

lemma pollFrom_sleeps_eq (st : Nat → List Nat) (fuel i : Nat) :
    (pollFrom st i fuel).sleeps = List.replicate (pollFrom st i fuel).iters 200 := by
  induction fuel generalizing i with
  | zero => simp [pollFrom]
  | succ fuel ih =>
    simp only [pollFrom]
    split
    · rfl
    · simp [List.replicate_succ, ih (i + 1)]

lemma pollFrom_clears_add (st : Nat → List Nat) (fuel i : Nat) :
    (pollFrom st i fuel).clears + (if (pollFrom st i fuel).result then 1 else 0)
      = (pollFrom st i fuel).iters := by
  induction fuel generalizing i with
  | zero => simp [pollFrom]
  | succ fuel ih =>
    simp only [pollFrom]
    split
    · simp
    · have h := ih (i + 1)
      cases hr : (pollFrom st (i + 1) fuel).result <;>
        simp only [hr, if_true, if_false] at h ⊢ <;> omega

lemma pollFrom_result_iff (st : Nat → List Nat) (fuel i : Nat) :
    (pollFrom st i fuel).result = true
      ↔ ∃ j, j < fuel ∧ allClearIter (st (i + j)) = true := by
  induction fuel generalizing i with
  | zero => simp [pollFrom]
  | succ fuel ih =>
    simp only [pollFrom]
    split
    case isTrue h =>
      simp only [true_iff]
      exact ⟨0, by omega, by simpa using h⟩
    case isFalse h =>
      rw [ih (i + 1)]
      constructor
      · rintro ⟨j, hj, hc⟩
        exact ⟨j + 1, by omega, by rw [show i + (j + 1) = i + 1 + j by omega]; exact hc⟩
      · rintro ⟨j, hj, hc⟩
        cases j with
        | zero => exact absurd (by simpa using hc) h
        | succ j =>
          exact ⟨j, by omega, by rw [show i + 1 + j = i + (j + 1) by omega]; exact hc⟩

/-! Claim theorems. -/

/-- C1: evaluation of the checkMailboxes decoder at the failing input. With
both SM status reads answered (wkc 1) and both status bytes 0x08 (buffer
full), the code sets write_available — the can_write flag — to true, although
the claim requires SM0-full to force can_write = false; read_available is
taken from the SM0 reply rather than the SM1 reply. The issue order itself is
as claimed: first SM0's status byte, then SM1's. -/
theorem checkMailboxes_swaps_flags_eval :
    checkMailboxesDecode (1, 0x08) (1, 0x08) = MboxFlags.mk true true
    ∧ (checkMailboxesDecode (1, 0x08) (1, 0x08)).write_available ≠ false
    ∧ checkMailboxesIssue [0x1000]
        = [Dgm.mk Command.FPRD (0x1000 * 65536 + 0x805) 1 0,
           Dgm.mk Command.FPRD (0x1000 * 65536 + 0x80D) 1 0] := by
  decide

/-- C2: evaluation of the init tail after configureMailboxes. The step list
is a fixed 10000 µs sleep followed by checkMailboxes and one AL_STATUS read
per slave for printing: it contains no poll of AL status against the
requested state and no 10-second (10000000 µs) wait, and by construction it
does not depend on any slave's AL status value. -/
theorem init_preop_no_poll_eval :
    initPreOpTail [0x1000, 0x1001, 0x1002]
      = [InitStep.requestState 2, InitStep.sleepMicros 10000, InitStep.checkMailboxes,
         InitStep.readAlStatus 0x1000, InitStep.readAlStatus 0x1001,
         InitStep.readAlStatus 0x1002]
    ∧ (∀ s, s ∈ initPreOpTail [0x1000, 0x1001, 0x1002] → s ≠ InitStep.sleepMicros 10000000)
    ∧ (10000 : Nat) ≠ 10000000 := by
  decide

/-- C3: the four per-message terminal statuses are not pairwise distinct:
COE_CLIENT_BUFFER_TOO_SMALL and COE_SEGMENT_BAD_TOGGLE_BIT are both 0x103,
while the remaining pairs do differ, so exactly the pair the claim singles
out is indistinguishable by a caller reading a failed message's status. -/
theorem messageStatus_duplicate_eval :
    MessageStatus.COE_CLIENT_BUFFER_TOO_SMALL = MessageStatus.COE_SEGMENT_BAD_TOGGLE_BIT
    ∧ MessageStatus.COE_WRONG_SERVICE ≠ MessageStatus.COE_UNKNOWN_SERVICE
    ∧ MessageStatus.COE_WRONG_SERVICE ≠ MessageStatus.COE_CLIENT_BUFFER_TOO_SMALL
    ∧ MessageStatus.COE_UNKNOWN_SERVICE ≠ MessageStatus.COE_CLIENT_BUFFER_TOO_SMALL := by
  decide

/-- C5 counterexample: at N = 15 slaves the controller holds 6 frames while
the claimed formula ceil(2*15 / 15) * 2 gives 4, so the claim fails as
stated. -/
theorem frames_ceil_cex :
    framesAfterDetect 15 = 6
    ∧ specCeilFrames 15 = 4
    ∧ framesAfterDetect 15 ≠ specCeilFrames 15 := by
  decide

/-- C5 amended: for every N the number of frames held after discovery equals
(floor(2N/15) + 1) * 2, which is ceil(2N/15) * 2 whenever 15 does not divide
2N and two more than it when 15 divides 2N (that is, when 15 divides N). -/
theorem frames_after_detect_amended (n : Nat) :
    framesAfterDetect n = specCeilFrames n + (if 2 * n % 15 = 0 then 2 else 0) := by
  unfold framesAfterDetect neededFrames specCeilFrames ceilDiv MAX_ETHERCAT_DATAGRAMS
  rw [Nat.mul_comm n 2]
  by_cases h : 2 * n % 15 = 0
  · rw [if_pos h]
    omega
  · rw [if_neg h]
    omega

/-- C9: with the initial counter 0, the k-th value returned by nextCounter is
(k-1) % 7 + 1; every returned value lies in 1..7, is never 0, and differs
from the next returned value. -/
theorem mailbox_counter_law (k : Nat) :
    counterAfter (k + 1) = k % 7 + 1
    ∧ 1 ≤ counterAfter (k + 1)
    ∧ counterAfter (k + 1) ≤ 7
    ∧ counterAfter (k + 1) ≠ 0
    ∧ counterAfter (k + 2) ≠ counterAfter (k + 1) := by
  have h1 := counterAfter_closed k
  have h2 : counterAfter (k + 2) = (k + 1) % 7 + 1 := counterAfter_closed (k + 1)
  refine ⟨h1, ?_, ?_, ?_, ?_⟩ <;> omega

/-- C10: a socket I/O failure makes broadcastRead and broadcastWrite return
working counter 0, and detectSlaves then reports "No slaves on the bus" —
the very outcome a link failure produces is the one produced by a healthy
link with zero responding slaves, while any positive working counter yields
success. -/
theorem link_error_masked_as_no_slaves :
    broadcastReadWkc LinkIo.ioError = 0
    ∧ broadcastWriteWkc LinkIo.ioError = 0
    ∧ detectSlavesOutcome LinkIo.ioError = Except.error "No slaves on the bus"
    ∧ detectSlavesOutcome LinkIo.ioError = detectSlavesOutcome (LinkIo.ok 0)
    ∧ (∀ w : Nat, 1 ≤ w → detectSlavesOutcome (LinkIo.ok w) = Except.ok w) := by
  refine ⟨rfl, rfl, rfl, rfl, ?_⟩
  intro w hw
  have h : w ≠ 0 := by omega
  simp [detectSlavesOutcome, broadcastReadWkc, h]

/-- C4 counterexample: two datagrams issued consecutively through the batched
Bus::addDatagram path both carry index byte 0 — their index bytes are not
distinct, so the index byte is not incremented once per issued datagram; and
getCurrentState stamps 0x55 while the counter holds 3, so its index byte does
not come from the counter at all. -/
theorem index_not_per_datagram_cex :
    (stampIndices 0 [BusOp.addDatagram Command.APRW 16 2,
                     BusOp.addDatagram Command.APRW 15 2]).1 = [0, 0]
    ∧ ¬ ((stampIndices 0 [BusOp.addDatagram Command.APRW 16 2,
                          BusOp.addDatagram Command.APRW 15 2]).1).Nodup
    ∧ (stampIndices 3 [BusOp.getCurrentState 4096 true]).1 = [0x55] := by
  decide

/-- C4 amended: only the broadcast helpers stamp the idx_ counter and
increment it (once per successful call, modulo 256) — so any n ≤ 256
consecutive successful broadcast datagrams carry pairwise distinct index
bytes; the batched addDatagram path stamps the current counter without
incrementing it, so all datagrams of a batch share one index byte; and
getCurrentState stamps the constant 0x55 regardless of the counter. -/
theorem index_stamping_amended (c n m a s addr sz : Nat) (cmd : Command)
    (h : n ≤ 256) :
    ((stampIndices c (List.replicate n (BusOp.broadcastRead a s true))).1).Nodup
    ∧ (stampIndices c (List.replicate m (BusOp.addDatagram cmd addr sz))).1
        = List.replicate m (c % 256)
    ∧ (stampIndices c [BusOp.getCurrentState addr true]).1 = [0x55] := by
  refine ⟨?_, stampIndices_replicate_add c m addr sz cmd, rfl⟩
  rw [stampIndices_replicate_brd]
  refine List.Nodup.map_on ?_ (List.nodup_range _)
  intro x hx y hy hxy
  simp only [List.mem_range] at hx hy
  omega

/-- C4 amended, witness at counter 5 with 10 broadcasts and a 4-datagram
batch. -/
theorem index_stamping_amended_witness :
    (10 : Nat) ≤ 256
    ∧ (((stampIndices 5 (List.replicate 10 (BusOp.broadcastRead 0 1 true))).1).Nodup
      ∧ (stampIndices 5 (List.replicate 4 (BusOp.addDatagram Command.APRW 16 2))).1
          = List.replicate 4 (5 % 256)
      ∧ (stampIndices 5 [BusOp.getCurrentState 4096 true]).1 = [0x55]) :=
  ⟨by decide, index_stamping_amended 5 10 4 0 1 16 2 Command.APRW (by decide)⟩

/-- C6: the EEPROM readiness poll executes at most 10 iterations, each
preceded by one 200 µs pause; an iteration batches a 2-byte FPRD of
EEPROM_CONTROL for every slave; the poll succeeds exactly when some iteration
among the 10 sees every slave's status word with busy bit 0x8000 clear; every
failed iteration clears all frames; and when every iteration sees a busy
slave, readEeprom fails with the EEPROM timeout error. -/
theorem eeprom_poll_spec (statuses : Nat → List Nat) (slaves : List Nat)
    (words : List Nat)
    (hbusy : ∀ i, i < 10 → allClearIter (statuses i) = false) :
    (eepromPoll statuses).iters ≤ 10
    ∧ (eepromPoll statuses).sleeps = List.replicate (eepromPoll statuses).iters 200
    ∧ (eepromPoll statuses).clears
        + (if (eepromPoll statuses).result then 1 else 0) = (eepromPoll statuses).iters
    ∧ (∀ st : Nat → List Nat,
        areEepromReady st = true ↔ ∃ j, j < 10 ∧ allClearIter (st j) = true)
    ∧ (eepromControlBatch slaves).length = slaves.length
    ∧ (∀ d, d ∈ eepromControlBatch slaves →
        d.command = Command.FPRD ∧ d.size = 2 ∧ d.address % 65536 = reg.EEPROM_CONTROL)
    ∧ readEeprom slaves.length slaves.length statuses words
        = Except.error "eeprom not ready - timeout" := by
  have hiff : ∀ st : Nat → List Nat,
      areEepromReady st = true ↔ ∃ j, j < 10 ∧ allClearIter (st j) = true := by
    intro st
    have h := pollFrom_result_iff st 10 0
    simpa [areEepromReady, eepromPoll] using h
  refine ⟨pollFrom_iters_le statuses 10 0, pollFrom_sleeps_eq statuses 10 0,
    pollFrom_clears_add statuses 10 0, hiff,
    by unfold eepromControlBatch; exact List.length_map _ _, ?_, ?_⟩
  · intro d hd
    simp only [eepromControlBatch, List.mem_map] at hd
    obtain ⟨a, _, rfl⟩ := hd
    refine ⟨rfl, rfl, ?_⟩
    simp only [createAddress, reg.EEPROM_CONTROL]
    omega
  · have hfalse : areEepromReady statuses = false := by
      rcases Bool.eq_false_or_eq_true (areEepromReady statuses) with h | h
      · obtain ⟨j, hj, hc⟩ := (hiff statuses).1 h
        rw [hbusy j hj] at hc
        cases hc
      · exact h
    simp [readEeprom, hfalse]

/-- C6, witness: one slave whose EEPROM status stays busy (0x8000) at every
iteration. -/
theorem eeprom_poll_spec_witness :
    (∀ i, i < 10 → allClearIter ((fun _ => [0x8000]) i) = false)
    ∧ ((eepromPoll (fun _ => [0x8000])).iters ≤ 10
      ∧ (eepromPoll (fun _ => [0x8000])).sleeps
          = List.replicate (eepromPoll (fun _ => [0x8000])).iters 200
      ∧ (eepromPoll (fun _ => [0x8000])).clears
          + (if (eepromPoll (fun _ => [0x8000])).result then 1 else 0)
          = (eepromPoll (fun _ => [0x8000])).iters
      ∧ (∀ st : Nat → List Nat,
          areEepromReady st = true ↔ ∃ j, j < 10 ∧ allClearIter (st j) = true)
      ∧ (eepromControlBatch [0x1000]).length = [0x1000].length
      ∧ (∀ d, d ∈ eepromControlBatch [0x1000] →
          d.command = Command.FPRD ∧ d.size = 2 ∧ d.address % 65536 = reg.EEPROM_CONTROL)
      ∧ readEeprom [0x1000].length [0x1000].length (fun _ => [0x8000]) [0]
          = Except.error "eeprom not ready - timeout") :=
  ⟨by intro i _; rfl,
   eeprom_poll_spec (fun _ => [0x8000]) [0x1000] [0] (by intro i _; rfl)⟩

/-- C7: the stored eeprom_size is ((word mod 256) + 1) * 128 bytes — the low
byte is kibits minus one — and eeprom_version is the high 16 bits
(word / 65536); the word 0x00070002 decodes to 384 bytes, version 7; and
fetchEeprom applies this decoding to every slave's word position-wise. -/
theorem eeprom_size_decode :
    (∀ w : Nat, (applyEepromSize w).eeprom_size = (w % 256 + 1) * 128
      ∧ (applyEepromSize w).eeprom_version = w / 65536)
    ∧ applyEepromSize 0x00070002 = EepromInfo.mk 384 7
    ∧ (∀ words : List Nat, ∀ i : Nat,
        (fetchEepromSizes words)[i]? = (words[i]?).map applyEepromSize) := by
  refine ⟨fun w => ⟨?_, ?_⟩, by decide, fun words i => ?_⟩
  · show ((w &&& 0xFF) + 1) * 128 = (w % 256 + 1) * 128
    have h := Nat.and_pow_two_sub_one_eq_mod w 8
    norm_num at h
    rw [h]
  · show w >>> 16 = w / 65536
    have h := Nat.shiftRight_eq_div_pow w 16
    norm_num at h
    exact h
  · simp [fetchEepromSizes, List.getElem?_map]

/-- C8: for each slave i the addressing loop issues an APRW of STATION_ADDR
at two's-complement auto-increment position -i carrying the 2-byte value
0x1000 + i, all batched and committed by one processFrames call; afterwards
the assigned station addresses are exactly the interval from 0x1000 to
0x1000 + N - 1 and pairwise distinct (N at most 0xF000 so that the 16-bit
station address does not wrap). -/
theorem addressing_spec (n : Nat) (hn : n ≤ 61440) :
    (∀ a : Nat, a ∈ assignedAddresses n ↔ 0x1000 ≤ a ∧ a < 0x1000 + n)
    ∧ (assignedAddresses n).Nodup
    ∧ (addressingDatagrams n).length = n
    ∧ (∀ i, i < n →
        (addressingDatagrams n)[i]? = some
          (Dgm.mk Command.APRW (((65536 - i) % 65536) * 65536 + 0x10) 2 (0x1000 + i)))
    ∧ (addressingPhase n).2 = 1 := by
  refine ⟨?_, ?_, by simp [addressingDatagrams], ?_, rfl⟩
  · intro a
    simp only [assignedAddresses, List.mem_map, List.mem_range]
    constructor
    · rintro ⟨i, hi, rfl⟩
      omega
    · rintro ⟨h1, h2⟩
      exact ⟨a - 0x1000, by omega, by omega⟩
  · simp only [assignedAddresses]
    refine List.Nodup.map_on ?_ (List.nodup_range _)
    intro x hx y hy hxy
    simp only [List.mem_range] at hx hy
    omega
  · intro i hi
    have hi6 : i < 65536 := by omega
    simp only [addressingDatagrams, List.getElem?_map, List.getElem?_range, hi,
      Option.map_some', createAddress, reg.STATION_ADDR, Option.some.injEq, Dgm.mk.injEq]
    refine ⟨trivial, ?_, trivial, ?_⟩ <;> omega

/-- C8, witness at N = 3. -/
theorem addressing_spec_witness :
    (3 : Nat) ≤ 61440
    ∧ ((∀ a : Nat, a ∈ assignedAddresses 3 ↔ 0x1000 ≤ a ∧ a < 0x1000 + 3)
      ∧ (assignedAddresses 3).Nodup
      ∧ (addressingDatagrams 3).length = 3
      ∧ (∀ i, i < 3 →
          (addressingDatagrams 3)[i]? = some
            (Dgm.mk Command.APRW (((65536 - i) % 65536) * 65536 + 0x10) 2 (0x1000 + i)))
      ∧ (addressingPhase 3).2 = 1) :=
  ⟨by decide, addressing_spec 3 (by decide)⟩

end KickCat
